import Mathlib

/- Shallow embedding of the ball/paddle physics and particle system of the
Pong implementation in src/main.py.  Pixel coordinates (pygame Rect fields)
are integers; continuous quantities (velocities, spin, particle ages) are
exact rationals.  The final speed cap of Ball.update divides by a Euclidean
norm (math.hypot), so that one step is modelled over the reals.  Random
draws (random.uniform, random.choice, random.random) are modelled as extra
parameters of the functions that consume them.  Sound playback and particle
rendering perform no state change on balls or paddles and are omitted from
the ball/paddle transition functions. -/

def WIDTH : ℤ := 900

def HEIGHT : ℤ := 600

def PADDLE_WIDTH : ℤ := 16

def PADDLE_HEIGHT : ℤ := 110

def BALL_SIZE : ℤ := 18

def PADDLE_SPEED : ℚ := 7

def BALL_SPEED : ℚ := 5

def WIN_SCORE : ℕ := 7

def BALL_MASS : ℚ := 6/10

def PADDLE_MASS : ℚ := 4

def BALL_MAX_SPEED : ℚ := 14

def BALL_DRAG : ℚ := 997/1000

def SPIN_FACTOR : ℚ := 28/100

def SPIN_DECAY : ℚ := 96/100

def BOUNCE_ELASTICITY : ℚ := 103/100

def PADDLE_RECOIL : ℚ := 24/10

/-- A pygame Rect: x, y is the top-left corner, w, h the extents. -/
structure Rect where
  x : ℤ
  y : ℤ
  w : ℤ
  h : ℤ
deriving DecidableEq

/-- The pygame centerx getter: x + w half, with integer division. -/
def Rect.centerx (r : Rect) : ℤ := r.x + r.w / 2

/-- The pygame centery getter: y + h half, with integer division. -/
def Rect.centery (r : Rect) : ℤ := r.y + r.h / 2

/-- The pygame rect.center setter: moves the top-left corner so the center
lands on the given point. -/
def Rect.setCenter (r : Rect) (cx cy : ℤ) : Rect :=
  { r with x := cx - r.w / 2, y := cy - r.h / 2 }

/-- The pygame Rect.colliderect test: strict overlap on both axes, with
zero-sized rectangles never colliding. -/
def colliderect (a b : Rect) : Prop :=
  a.w ≠ 0 ∧ a.h ≠ 0 ∧ b.w ≠ 0 ∧ b.h ≠ 0 ∧
  a.x < b.x + b.w ∧ b.x < a.x + a.w ∧ a.y < b.y + b.h ∧ b.y < a.y + a.h

instance (a b : Rect) : Decidable (colliderect a b) := by
  unfold colliderect; infer_instance

/-- Python int() applied to a float: truncation toward zero. -/
def ratTrunc (q : ℚ) : ℤ := if q < 0 then ⌈q⌉ else ⌊q⌋

/-- Python math.copysign(1, x); copysign(1, 0.0) is 1.0. -/
def sgn1 (x : ℚ) : ℚ := if x < 0 then -1 else 1

/-- State of the Paddle class: rect plus the inertia-based velocity model. -/
structure Paddle where
  rect : Rect
  speed : ℚ
  vel : ℚ
  targetVel : ℚ
  inertia : ℚ
deriving DecidableEq

/-- Paddle.move(dy): blend the velocity toward the target with the inertia
coefficient, then advance rect.y by the truncated velocity, clamping at 0
when moving up and at HEIGHT - PADDLE_HEIGHT when moving down. -/
def Paddle.move (p : Paddle) (dy : ℚ) : Paddle :=
  let tv := dy
  let v := p.vel * p.inertia + tv * (1 - p.inertia)
  if v < 0 then
    { p with targetVel := tv, vel := v,
             rect := { p.rect with y := max (p.rect.y + ratTrunc v) 0 } }
  else
    { p with targetVel := tv, vel := v,
             rect := { p.rect with y := min (p.rect.y + ratTrunc v) (HEIGHT - PADDLE_HEIGHT) } }

/-- Paddle.apply_recoil(impulse): adds the impulse to the velocity only. -/
def Paddle.apply_recoil (p : Paddle) (impulse : ℚ) : Paddle :=
  { p with vel := p.vel + impulse }

/-- One externally triggered paddle operation: a move call or a recoil. -/
inductive PaddleOp where
  | move (dy : ℚ)
  | recoil (impulse : ℚ)

def Paddle.applyOp (p : Paddle) (op : PaddleOp) : Paddle :=
  match op with
  | PaddleOp.move dy => p.move dy
  | PaddleOp.recoil i => p.apply_recoil i

def Paddle.applyOps (p : Paddle) (ops : List PaddleOp) : Paddle :=
  ops.foldl Paddle.applyOp p

/-- State of the Ball class: rect, velocity vector, accumulated spin. -/
structure Ball where
  rect : Rect
  velx : ℚ
  vely : ℚ
  spin : ℚ
deriving DecidableEq

/-- Ball.reset(direction): center the rect on the playfield, serve with
horizontal speed BALL_SPEED (times the direction when one is given), a
random vertical component choice([-1,1]) * uniform(2,4) (modelled by ySign
and yMag), zero spin; when no direction was given, flip the horizontal
sign with probability one half (modelled by flip). -/
def Ball.reset (b : Ball) (direction : Option ℤ) (ySign : Bool) (yMag : ℚ) (flip : Bool) : Ball :=
  let rect := b.rect.setCenter (WIDTH / 2) (HEIGHT / 2)
  let vx : ℚ := match direction with
    | none => BALL_SPEED
    | some d => BALL_SPEED * (d : ℚ)
  let vy : ℚ := (if ySign then 1 else -1) * yMag
  let vx := if direction = none ∧ flip then vx * (-1) else vx
  { rect := rect, velx := vx, vely := vy, spin := 0 }

/-- The Magnus-like spin step at the top of Ball.update: when the spin is
above the threshold it drifts the vertical velocity and decays. -/
def spinStep (b : Ball) : Ball :=
  if 1/1000 < |b.spin| then
    { b with vely := b.vely + b.spin * (12/100), spin := b.spin * SPIN_DECAY }
  else b

/-- The movement step of Ball.update: rect.x += int(vel[0]),
rect.y += int(vel[1]). -/
def moveStep (b : Ball) : Ball :=
  { b with rect := { b.rect with x := b.rect.x + ratTrunc b.velx,
                                 y := b.rect.y + ratTrunc b.vely } }

/-- Top boundary branch of Ball.update: clamp rect.top to 0, invert the
vertical velocity, boost the horizontal velocity, decay spin. -/
def topCollide (b : Ball) : Ball :=
  if b.rect.y ≤ 0 then
    { b with rect := { b.rect with y := 0 },
             vely := b.vely * (-1),
             velx := b.velx * (101/100),
             spin := b.spin * (6/10) }
  else b

/-- Bottom boundary branch of Ball.update: clamp rect.bottom to HEIGHT,
invert the vertical velocity, boost the horizontal velocity, decay spin. -/
def bottomCollide (b : Ball) : Ball :=
  if HEIGHT ≤ b.rect.y + b.rect.h then
    { b with rect := { b.rect with y := HEIGHT - b.rect.h },
             vely := b.vely * (-1),
             velx := b.velx * (101/100),
             spin := b.spin * (6/10) }
  else b

/-- The two wall branches of Ball.update, checked in source order. -/
def wallCollide (b : Ball) : Ball := bottomCollide (topCollide b)

/-- The private bounce helper of the Ball class: invert and scale the
horizontal velocity by the elasticity, transfer paddle momentum into the
vertical velocity, accumulate spin, and reassign a random-signed default
horizontal speed (modelled by r) when the result is exactly zero. -/
def Ball.bounceStep (b : Ball) (paddleVel spinInput : ℚ) (r : Bool) : Ball :=
  let vx := -b.velx * BOUNCE_ELASTICITY
  let vy := b.vely + paddleVel * (PADDLE_MASS / (PADDLE_MASS + BALL_MASS)) * (9/10)
  let sp := b.spin + spinInput * (9/10)
  { b with velx := if vx = 0 then BALL_SPEED * (if r then 1 else -1) else vx,
           vely := vy,
           spin := sp }

/-- Left paddle branch of Ball.update: fires only when the ball overlaps
the left paddle and moves left; bounces the ball and recoils the paddle
using the sign of the post-bounce horizontal velocity. -/
def leftCollideStep (b : Ball) (lp : Paddle) (r : Bool) : Ball × Paddle :=
  if colliderect b.rect lp.rect ∧ b.velx < 0 then
    let offset : ℚ := ((b.rect.centery - lp.rect.centery : ℤ) : ℚ) / ((PADDLE_HEIGHT : ℚ) / 2)
    let spinIn := lp.vel * SPIN_FACTOR + offset * 1
    let b2 := b.bounceStep lp.vel spinIn r
    (b2, lp.apply_recoil (-PADDLE_RECOIL * sgn1 b2.velx))
  else (b, lp)

/-- Right paddle branch of Ball.update: fires only when the ball overlaps
the right paddle and moves right. -/
def rightCollideStep (b : Ball) (rp : Paddle) (r : Bool) : Ball × Paddle :=
  if colliderect b.rect rp.rect ∧ 0 < b.velx then
    let offset : ℚ := ((b.rect.centery - rp.rect.centery : ℤ) : ℚ) / ((PADDLE_HEIGHT : ℚ) / 2)
    let spinIn := rp.vel * SPIN_FACTOR + offset * 1
    let b2 := b.bounceStep rp.vel spinIn r
    (b2, rp.apply_recoil (PADDLE_RECOIL * sgn1 b2.velx))
  else (b, rp)

/-- Both paddle branches of Ball.update, left first, in source order. -/
def paddleCollide (b : Ball) (lp rp : Paddle) (rL rR : Bool) : Ball × Paddle × Paddle :=
  let l := leftCollideStep b lp rL
  let r := rightCollideStep l.1 rp rR
  (r.1, l.2, r.2)

/-- The drag step of Ball.update: both components shrink by BALL_DRAG. -/
def dragStep (b : Ball) : Ball :=
  { b with velx := b.velx * BALL_DRAG, vely := b.vely * BALL_DRAG }

/-- The speed cap at the end of Ball.update: when math.hypot of the
velocity exceeds BALL_MAX_SPEED, rescale it to exactly that magnitude.
The scale factor divides by a square root, so the result is real. -/
noncomputable def capSpeed (v : ℚ × ℚ) : ℝ × ℝ :=
  if ((BALL_MAX_SPEED : ℚ) : ℝ) < Real.sqrt ((v.1 : ℝ) ^ 2 + (v.2 : ℝ) ^ 2) then
    ((v.1 : ℝ) * (((BALL_MAX_SPEED : ℚ) : ℝ) / Real.sqrt ((v.1 : ℝ) ^ 2 + (v.2 : ℝ) ^ 2)),
     (v.2 : ℝ) * (((BALL_MAX_SPEED : ℚ) : ℝ) / Real.sqrt ((v.1 : ℝ) ^ 2 + (v.2 : ℝ) ^ 2)))
  else ((v.1 : ℝ), (v.2 : ℝ))

/-- Result type of a full Ball.update: the capped velocity is real. -/
structure BallOut where
  rect : Rect
  velx : ℝ
  vely : ℝ
  spin : ℚ

/-- Ball.update(left_paddle, right_paddle): spin drift, movement, wall
branches, paddle branches, drag, speed cap, in source order.  rL and rR
model the random draw consumed by the zero-velocity reassignment of each
paddle branch.  Trail-particle spawning touches only the global particle
list, and sound playback touches no game state; both are omitted here. -/
noncomputable def Ball.update (b : Ball) (lp rp : Paddle) (rL rR : Bool) : BallOut × Paddle × Paddle :=
  let pc := paddleCollide (wallCollide (moveStep (spinStep b))) lp rp rL rR
  let b5 := dragStep pc.1
  ({ rect := b5.rect,
     velx := (capSpeed (b5.velx, b5.vely)).1,
     vely := (capSpeed (b5.velx, b5.vely)).2,
     spin := b5.spin }, pc.2.1, pc.2.2)

/-- A particle record as built by add_particle, add_explosion and the
trail spawn inside Ball.update. -/
structure Particle where
  pos : ℚ × ℚ
  vel : ℚ × ℚ
  life : ℚ
  age : ℚ
  color : ℕ × ℕ × ℕ
  size : ℚ
deriving DecidableEq

/-- The two global particle lists of src/main.py: `particles` holds the
trail, `explosion_particles` the current explosion burst. -/
structure ParticleState where
  particles : List Particle
  explosion_particles : List Particle
deriving DecidableEq

/-- One trail particle aged by dt, as in the first loop of
update_particles: age grows by dt, the position integrates the old
velocity, then the vertical velocity gets the small downward bias. -/
def ageTrail (dt : ℚ) (p : Particle) : Particle :=
  { p with age := p.age + dt,
           pos := (p.pos.1 + p.vel.1 * 60 * dt, p.pos.2 + p.vel.2 * 60 * dt),
           vel := (p.vel.1, p.vel.2 + 8/100 * dt * 60) }

/-- One explosion particle aged by dt, as in the second loop of
update_particles: age grows by dt, the position integrates the old
velocity, both velocity components are damped, then gravity pulls down. -/
def ageExplosion (dt : ℚ) (p : Particle) : Particle :=
  { p with age := p.age + dt,
           pos := (p.pos.1 + p.vel.1 * 60 * dt, p.pos.2 + p.vel.2 * 60 * dt),
           vel := (p.vel.1 * (985/1000), p.vel.2 * (985/1000) + 45/100 * dt * 60) }

/-- update_particles(dt): age every particle of both lists and drop each
particle whose aged age reaches its lifetime. -/
def update_particles (dt : ℚ) (st : ParticleState) : ParticleState :=
  { particles := st.particles.filterMap (fun p =>
      let p2 := ageTrail dt p
      if p2.life ≤ p2.age then none else some p2),
    explosion_particles := st.explosion_particles.filterMap (fun p =>
      let p2 := ageExplosion dt p
      if p2.life ≤ p2.age then none else some p2) }

/-- One random draw of the add_explosion loop: the cosine and sine of the
uniform angle, the uniform speed in [2.5, 8.5], the uniform lifetime in
[0.9, 1.6] and the uniform size in [3.5, 9.0]. -/
structure ExplRand where
  cosA : ℚ
  sinA : ℚ
  speed : ℚ
  life : ℚ
  size : ℚ

/-- add_explosion(cx, cy, color, count): clear the previous explosion
burst, then append count particles centered at (cx, cy), each moving with
its drawn direction and speed; the trail list is untouched. -/
def add_explosion (st : ParticleState) (cx cy : ℚ) (color : ℕ × ℕ × ℕ)
    (count : ℕ) (rng : ℕ → ExplRand) : ParticleState :=
  { particles := st.particles,
    explosion_particles := (List.range count).map (fun i =>
      { pos := (cx, cy),
        vel := ((rng i).cosA * (rng i).speed, (rng i).sinA * (rng i).speed),
        life := (rng i).life,
        age := 0,
        color := color,
        size := (rng i).size }) }

theorem ratTrunc_nonneg {q : ℚ} (h : 0 ≤ q) : 0 ≤ ratTrunc q := by
  unfold ratTrunc
  rw [if_neg (not_lt.mpr h)]
  exact Int.floor_nonneg.mpr h

theorem ratTrunc_nonpos {q : ℚ} (h : q < 0) : ratTrunc q ≤ 0 := by
  unfold ratTrunc
  rw [if_pos h]
  exact Int.ceil_le.mpr (by exact_mod_cast le_of_lt h)

theorem Paddle.move_y_bounds (p : Paddle) (dy : ℚ)
    (h0 : 0 ≤ p.rect.y) (h1 : p.rect.y ≤ HEIGHT - PADDLE_HEIGHT) :
    0 ≤ (p.move dy).rect.y ∧ (p.move dy).rect.y ≤ HEIGHT - PADDLE_HEIGHT := by
  have hHP : (0 : ℤ) ≤ HEIGHT - PADDLE_HEIGHT := by decide
  unfold Paddle.move
  dsimp only
  by_cases hv : p.vel * p.inertia + dy * (1 - p.inertia) < 0
  · rw [if_pos hv]
    refine ⟨le_max_right _ _, max_le ?_ hHP⟩
    have ht := ratTrunc_nonpos hv
    omega
  · rw [if_neg hv]
    refine ⟨le_min ?_ hHP, min_le_right _ _⟩
    have ht := ratTrunc_nonneg (not_lt.mp hv)
    omega

/-- C1: for every starting paddle whose vertical position lies in
[0, HEIGHT - PADDLE_HEIGHT] and every sequence of move(dy) and
apply_recoil calls with arbitrary arguments, the vertical position stays
in that range; a recoil changes only the velocity, so it cannot break the
bound on the next move. -/
theorem paddle_y_invariant (p : Paddle) (ops : List PaddleOp)
    (h0 : 0 ≤ p.rect.y) (h1 : p.rect.y ≤ HEIGHT - PADDLE_HEIGHT) :
    0 ≤ (p.applyOps ops).rect.y ∧ (p.applyOps ops).rect.y ≤ HEIGHT - PADDLE_HEIGHT := by
  induction ops generalizing p with
  | nil => exact ⟨h0, h1⟩
  | cons op rest ih =>
    have hfold : Paddle.applyOps p (op :: rest) = Paddle.applyOps (p.applyOp op) rest := rfl
    rw [hfold]
    cases op with
    | move dy =>
      have h := Paddle.move_y_bounds p dy h0 h1
      exact ih _ h.1 h.2
    | recoil i =>
      exact ih _ h0 h1

def paddleW : Paddle :=
  { rect := { x := 20, y := 100, w := 16, h := 110 },
    speed := 7, vel := 0, targetVel := 0, inertia := 6/10 }

/-- Witness for C1 at a concrete paddle and a concrete operation list. -/
theorem paddle_y_invariant_witness :
    0 ≤ (paddleW.applyOps [PaddleOp.move 100, PaddleOp.recoil 3, PaddleOp.move (-50)]).rect.y ∧
    (paddleW.applyOps [PaddleOp.move 100, PaddleOp.recoil 3, PaddleOp.move (-50)]).rect.y
      ≤ HEIGHT - PADDLE_HEIGHT :=
  paddle_y_invariant paddleW _ (by decide) (by decide)

theorem capSpeed_le (v : ℚ × ℚ) :
    Real.sqrt ((capSpeed v).1 ^ 2 + (capSpeed v).2 ^ 2) ≤ ((BALL_MAX_SPEED : ℚ) : ℝ) := by
  have hM : ((BALL_MAX_SPEED : ℚ) : ℝ) = 14 := by norm_num [BALL_MAX_SPEED]
  unfold capSpeed
  by_cases h : ((BALL_MAX_SPEED : ℚ) : ℝ) < Real.sqrt ((v.1 : ℝ) ^ 2 + (v.2 : ℝ) ^ 2)
  · rw [if_pos h]
    dsimp only
    have hM0 : (0 : ℝ) < ((BALL_MAX_SPEED : ℚ) : ℝ) := by rw [hM]; norm_num
    have hspos : (0 : ℝ) < Real.sqrt ((v.1 : ℝ) ^ 2 + (v.2 : ℝ) ^ 2) := lt_trans hM0 h
    have hMs : (0 : ℝ) ≤ ((BALL_MAX_SPEED : ℚ) : ℝ) / Real.sqrt ((v.1 : ℝ) ^ 2 + (v.2 : ℝ) ^ 2) :=
      le_of_lt (div_pos hM0 hspos)
    have key : ((v.1 : ℝ) * (((BALL_MAX_SPEED : ℚ) : ℝ) / Real.sqrt ((v.1 : ℝ) ^ 2 + (v.2 : ℝ) ^ 2))) ^ 2
        + ((v.2 : ℝ) * (((BALL_MAX_SPEED : ℚ) : ℝ) / Real.sqrt ((v.1 : ℝ) ^ 2 + (v.2 : ℝ) ^ 2))) ^ 2
        = (((BALL_MAX_SPEED : ℚ) : ℝ) / Real.sqrt ((v.1 : ℝ) ^ 2 + (v.2 : ℝ) ^ 2)) ^ 2
          * ((v.1 : ℝ) ^ 2 + (v.2 : ℝ) ^ 2) := by ring
    rw [key, Real.sqrt_mul (sq_nonneg _), Real.sqrt_sq hMs,
        div_mul_cancel₀ _ (ne_of_gt hspos)]
  · rw [if_neg h]
    dsimp only
    exact not_lt.mp h

/-- C2: after every call to Ball.update, which resolves all collisions and
then applies drag and the speed cap, the Euclidean magnitude of the ball
velocity is at most BALL_MAX_SPEED, for every starting velocity, spin and
paddle state. -/
theorem ball_update_speed_capped (b : Ball) (lp rp : Paddle) (rL rR : Bool) :
    Real.sqrt ((Ball.update b lp rp rL rR).1.velx ^ 2 + (Ball.update b lp rp rL rR).1.vely ^ 2)
      ≤ ((BALL_MAX_SPEED : ℚ) : ℝ) := by
  have h := capSpeed_le
    ((dragStep (paddleCollide (wallCollide (moveStep (spinStep b))) lp rp rL rR).1).velx,
     (dragStep (paddleCollide (wallCollide (moveStep (spinStep b))) lp rp rL rR).1).vely)
  simpa [Ball.update] using h

/-- C3: every Ball.reset places the rect center exactly at the playfield
center (WIDTH halved, HEIGHT halved); a requested direction of +1 or -1
yields a horizontal velocity of the same sign; with no direction the
horizontal velocity has magnitude BALL_SPEED and a random sign. -/
theorem ball_reset_center_and_serve (b : Ball) (direction : Option ℤ) (ySign : Bool)
    (yMag : ℚ) (flip : Bool) :
    ((b.reset direction ySign yMag flip).rect.centerx = WIDTH / 2 ∧
     (b.reset direction ySign yMag flip).rect.centery = HEIGHT / 2) ∧
    (direction = some 1 → 0 < (b.reset direction ySign yMag flip).velx) ∧
    (direction = some (-1) → (b.reset direction ySign yMag flip).velx < 0) ∧
    (direction = none →
      (b.reset direction ySign yMag flip).velx = BALL_SPEED ∨
      (b.reset direction ySign yMag flip).velx = -BALL_SPEED) := by
  refine ⟨⟨?_, ?_⟩, ?_, ?_, ?_⟩
  · simp only [Ball.reset, Rect.setCenter, Rect.centerx]
    omega
  · simp only [Ball.reset, Rect.setCenter, Rect.centery]
    omega
  · intro hd; subst hd
    norm_num [Ball.reset, BALL_SPEED, Option.some_ne_none]
  · intro hd; subst hd
    norm_num [Ball.reset, BALL_SPEED, Option.some_ne_none]
  · intro hd; subst hd
    by_cases hf : flip <;> simp [Ball.reset, hf]

def ballW : Ball :=
  { rect := { x := 0, y := 0, w := 18, h := 18 }, velx := 0, vely := 0, spin := 0 }

/-- Witness for C3 at a concrete ball served to the right. -/
theorem ball_reset_center_and_serve_witness :
    (ballW.reset (some 1) true 3 false).rect.centerx = WIDTH / 2 ∧
    (ballW.reset (some 1) true 3 false).rect.centery = HEIGHT / 2 ∧
    0 < (ballW.reset (some 1) true 3 false).velx :=
  ⟨(ball_reset_center_and_serve ballW (some 1) true 3 false).1.1,
   (ball_reset_center_and_serve ballW (some 1) true 3 false).1.2,
   (ball_reset_center_and_serve ballW (some 1) true 3 false).2.1 rfl⟩

/-- C10: every Ball.reset, for any direction, zeroes the accumulated spin
and gives the vertical velocity a magnitude in [2, 4] with a random sign,
so it is never zero. -/
theorem ball_reset_spin_and_vertical (b : Ball) (direction : Option ℤ) (ySign : Bool)
    (yMag : ℚ) (flip : Bool) (h2 : 2 ≤ yMag) (h4 : yMag ≤ 4) :
    (b.reset direction ySign yMag flip).spin = 0 ∧
    (b.reset direction ySign yMag flip).vely ≠ 0 ∧
    2 ≤ |(b.reset direction ySign yMag flip).vely| ∧
    |(b.reset direction ySign yMag flip).vely| ≤ 4 := by
  have hpos : 0 < yMag := lt_of_lt_of_le (by norm_num) h2
  have hv : (b.reset direction ySign yMag flip).vely = (if ySign then 1 else -1) * yMag := by
    simp [Ball.reset]
  have habs : |(b.reset direction ySign yMag flip).vely| = yMag := by
    rw [hv, abs_mul]
    cases ySign <;> simp [abs_of_pos hpos]
  refine ⟨by simp [Ball.reset], ?_, ?_, ?_⟩
  · exact abs_pos.mp (by rw [habs]; exact hpos)
  · rw [habs]; exact h2
  · rw [habs]; exact h4

/-- Witness for C10 at a concrete serve. -/
theorem ball_reset_spin_and_vertical_witness :
    (ballW.reset none false 3 true).spin = 0 ∧
    (ballW.reset none false 3 true).vely ≠ 0 ∧
    2 ≤ |(ballW.reset none false 3 true).vely| ∧
    |(ballW.reset none false 3 true).vely| ≤ 4 :=
  ball_reset_spin_and_vertical ballW none false 3 true (by norm_num) (by norm_num)

/-- C4: after update_particles(dt) with positive dt, every surviving
particle of either list has aged by exactly dt relative to a particle of
the corresponding input list, and satisfies age strictly below life; no
particle with age at or past its lifetime remains. -/
theorem update_particles_ages_and_prunes (dt : ℚ) (st : ParticleState) (_hdt : 0 < dt) :
    (∀ p ∈ (update_particles dt st).particles,
        p.age < p.life ∧ ∃ q ∈ st.particles, p.age = q.age + dt) ∧
    (∀ p ∈ (update_particles dt st).explosion_particles,
        p.age < p.life ∧ ∃ q ∈ st.explosion_particles, p.age = q.age + dt) := by
  constructor
  · intro p hp
    simp only [update_particles, List.mem_filterMap] at hp
    obtain ⟨q, hq, hqe⟩ := hp
    by_cases hc : (ageTrail dt q).life ≤ (ageTrail dt q).age
    · simp [hc] at hqe
    · simp only [hc, if_false, Option.some.injEq] at hqe
      subst hqe
      exact ⟨not_le.mp hc, q, hq, by simp [ageTrail]⟩
  · intro p hp
    simp only [update_particles, List.mem_filterMap] at hp
    obtain ⟨q, hq, hqe⟩ := hp
    by_cases hc : (ageExplosion dt q).life ≤ (ageExplosion dt q).age
    · simp [hc] at hqe
    · simp only [hc, if_false, Option.some.injEq] at hqe
      subst hqe
      exact ⟨not_le.mp hc, q, hq, by simp [ageExplosion]⟩

def particleW : Particle :=
  { pos := (0, 0), vel := (1, 1), life := 2, age := 0, color := (255, 255, 255), size := 3 }

def pstateW : ParticleState :=
  { particles := [particleW], explosion_particles := [{ particleW with life := 1/4 }] }

/-- Witness for C4 at a concrete particle state and dt of one half. -/
theorem update_particles_ages_and_prunes_witness :
    (∀ p ∈ (update_particles (1/2) pstateW).particles,
        p.age < p.life ∧ ∃ q ∈ pstateW.particles, p.age = q.age + 1/2) ∧
    (∀ p ∈ (update_particles (1/2) pstateW).explosion_particles,
        p.age < p.life ∧ ∃ q ∈ pstateW.explosion_particles, p.age = q.age + 1/2) :=
  update_particles_ages_and_prunes (1/2) pstateW (by norm_num)

/-- C9: add_explosion replaces the whole explosion list with exactly count
fresh particles, each positioned at the given center with age zero and a
lifetime drawn from [0.9, 1.6]; the trail list is untouched. -/
theorem add_explosion_spec (st : ParticleState) (cx cy : ℚ) (color : ℕ × ℕ × ℕ)
    (count : ℕ) (rng : ℕ → ExplRand)
    (hlife : ∀ i, 9/10 ≤ (rng i).life ∧ (rng i).life ≤ 8/5) :
    (add_explosion st cx cy color count rng).particles = st.particles ∧
    (add_explosion st cx cy color count rng).explosion_particles.length = count ∧
    ∀ p ∈ (add_explosion st cx cy color count rng).explosion_particles,
      p.pos = (cx, cy) ∧ p.age = 0 ∧ 9/10 ≤ p.life ∧ p.life ≤ 8/5 := by
  refine ⟨rfl, by simp [add_explosion], ?_⟩
  intro p hp
  simp only [add_explosion, List.mem_map, List.mem_range] at hp
  obtain ⟨i, hi, hpe⟩ := hp
  subst hpe
  exact ⟨rfl, rfl, (hlife i).1, (hlife i).2⟩

def rngW : ℕ → ExplRand :=
  fun _ => { cosA := 1, sinA := 0, speed := 3, life := 1, size := 4 }

/-- Witness for C9 at a concrete state with a nonempty previous burst. -/
theorem add_explosion_spec_witness :
    (add_explosion pstateW 450 300 (255, 0, 0) 60 rngW).particles = pstateW.particles ∧
    (add_explosion pstateW 450 300 (255, 0, 0) 60 rngW).explosion_particles.length = 60 ∧
    ∀ p ∈ (add_explosion pstateW 450 300 (255, 0, 0) 60 rngW).explosion_particles,
      p.pos = (450, 300) ∧ p.age = 0 ∧ 9/10 ≤ p.life ∧ p.life ≤ 8/5 :=
  add_explosion_spec pstateW 450 300 (255, 0, 0) 60 rngW
    (fun _ => ⟨by norm_num [rngW], by norm_num [rngW]⟩)

/-- C6: when the moved ball's bottom edge reaches or exceeds HEIGHT, the
wall-collision phase of Ball.update clamps the bottom exactly to HEIGHT,
flips the sign of the vertical velocity, boosts the horizontal velocity
by 1.01 and decays the spin; the horizontal position is untouched. -/
theorem bottom_wall_clamp (b : Ball) (hh : b.rect.h = BALL_SIZE)
    (hb : HEIGHT ≤ b.rect.y + b.rect.h) :
    (wallCollide b).rect.y + (wallCollide b).rect.h = HEIGHT ∧
    (wallCollide b).rect.x = b.rect.x ∧
    (wallCollide b).vely = -b.vely ∧
    (wallCollide b).velx = b.velx * (101/100) ∧
    (wallCollide b).spin = b.spin * (6/10) := by
  have hh18 : b.rect.h = 18 := by rw [hh]; rfl
  have h600 : HEIGHT = 600 := rfl
  have hy : ¬ (b.rect.y ≤ 0) := by omega
  unfold wallCollide topCollide
  rw [if_neg hy]
  unfold bottomCollide
  rw [if_pos hb]
  refine ⟨?_, rfl, ?_, rfl, rfl⟩
  · dsimp only
    omega
  · dsimp only
    exact mul_neg_one b.vely

def ballC6 : Ball :=
  { rect := { x := 100, y := 590, w := 18, h := 18 }, velx := 3, vely := 2, spin := 1 }

/-- Witness for C6 at a concrete ball that crossed the bottom boundary. -/
theorem bottom_wall_clamp_witness :
    (wallCollide ballC6).rect.y + (wallCollide ballC6).rect.h = HEIGHT ∧
    (wallCollide ballC6).rect.x = ballC6.rect.x ∧
    (wallCollide ballC6).vely = -ballC6.vely ∧
    (wallCollide ballC6).velx = ballC6.velx * (101/100) ∧
    (wallCollide ballC6).spin = ballC6.spin * (6/10) :=
  bottom_wall_clamp ballC6 rfl (by decide)

/-- C7: a paddle bounce is resolved only when the ball overlaps that
paddle and its horizontal velocity points toward it; when the overlap
exists but the velocity points away, or there is no overlap at all, that
branch leaves the ball and the paddle completely unchanged. -/
theorem paddle_branch_guard (b : Ball) (lp rp : Paddle) (rL rR : Bool) :
    (¬(colliderect b.rect lp.rect ∧ b.velx < 0) → leftCollideStep b lp rL = (b, lp)) ∧
    (¬(colliderect b.rect rp.rect ∧ 0 < b.velx) → rightCollideStep b rp rR = (b, rp)) := by
  constructor
  · intro h; unfold leftCollideStep; rw [if_neg h]
  · intro h; unfold rightCollideStep; rw [if_neg h]

def ballC7 : Ball :=
  { rect := { x := 810, y := 300, w := 18, h := 18 }, velx := 0, vely := 2, spin := 0 }

def lpC7 : Paddle :=
  { rect := { x := 805, y := 245, w := 16, h := 110 },
    speed := 7, vel := 0, targetVel := 0, inertia := 6/10 }

def rpC7 : Paddle :=
  { rect := { x := 800, y := 245, w := 16, h := 110 },
    speed := 7, vel := 0, targetVel := 0, inertia := 6/10 }

/-- Witness for C7: a ball overlapping both paddles with zero horizontal
velocity is untouched by both branches. -/
theorem paddle_branch_guard_witness :
    leftCollideStep ballC7 lpC7 true = (ballC7, lpC7) ∧
    rightCollideStep ballC7 rpC7 true = (ballC7, rpC7) :=
  ⟨(paddle_branch_guard ballC7 lpC7 rpC7 true true).1 (by decide),
   (paddle_branch_guard ballC7 lpC7 rpC7 true true).2 (by decide)⟩

/-- C8: in the bounce helper of the Ball class, when the inverted and
scaled horizontal velocity is exactly zero it is reassigned the default
speed BALL_SPEED with a random sign, so the horizontal velocity after the
helper is never zero. -/
theorem bounce_no_zero_stall (b : Ball) (pv sIn : ℚ) (r : Bool) :
    ((-b.velx * BOUNCE_ELASTICITY = 0) →
      (b.bounceStep pv sIn r).velx = BALL_SPEED ∨ (b.bounceStep pv sIn r).velx = -BALL_SPEED) ∧
    (b.bounceStep pv sIn r).velx ≠ 0 := by
  unfold Ball.bounceStep
  dsimp only
  by_cases h : -b.velx * BOUNCE_ELASTICITY = 0
  · rw [if_pos h]
    constructor
    · intro _
      cases r
      · right; norm_num [BALL_SPEED]
      · left; norm_num [BALL_SPEED]
    · cases r <;> norm_num [BALL_SPEED]
  · rw [if_neg h]
    exact ⟨fun hc => absurd hc h, h⟩

def ballC8 : Ball :=
  { rect := { x := 0, y := 0, w := 18, h := 18 }, velx := 0, vely := 1, spin := 0 }

/-- Witness for C8 at a concrete degenerate bounce. -/
theorem bounce_no_zero_stall_witness :
    ((ballC8.bounceStep 0 0 true).velx = BALL_SPEED ∨
     (ballC8.bounceStep 0 0 true).velx = -BALL_SPEED) ∧
    (ballC8.bounceStep 0 0 true).velx ≠ 0 :=
  ⟨(bounce_no_zero_stall ballC8 0 0 true).1 (by norm_num [ballC8]),
   (bounce_no_zero_stall ballC8 0 0 true).2⟩

def ballC5 : Ball :=
  { rect := { x := 810, y := 300, w := 18, h := 18 }, velx := -5, vely := 0, spin := 0 }

def ballC5b : Ball :=
  { rect := { x := 790, y := 300, w := 18, h := 18 }, velx := 5, vely := 0, spin := 0 }

def lpC5 : Paddle :=
  { rect := { x := 20, y := 245, w := 16, h := 110 },
    speed := 7, vel := 0, targetVel := 0, inertia := 6/10 }

def rpC5 : Paddle :=
  { rect := { x := 800, y := 245, w := 16, h := 110 },
    speed := 7, vel := 0, targetVel := 0, inertia := 6/10 }

/-- Counterexample to C5 as stated: a ball overlapping the right edge
region of the right paddle while moving left at horizontal speed 5, with
the paddle stationary, is left completely unchanged by the paddle
collision resolution, because the right branch fires only for rightward
motion: the horizontal velocity stays -5 instead of flipping to positive,
and the ball's left edge does not equal the paddle's right edge. -/
theorem right_paddle_scenario_counterexample :
    (paddleCollide ballC5 lpC5 rpC5 false false).1.velx = -5 ∧
    ¬ 0 < (paddleCollide ballC5 lpC5 rpC5 false false).1.velx ∧
    (paddleCollide ballC5 lpC5 rpC5 false false).1.rect.x ≠ rpC5.rect.x + rpC5.rect.w := by
  decide

/-- C5 amended: when the ball overlaps the right paddle while moving
right at horizontal speed 5 and the paddle is stationary, the resolution
flips the horizontal velocity to negative with magnitude exactly 5 times
BOUNCE_ELASTICITY, and the ball's rect is unchanged: the source performs
no positional clamping on a paddle hit. -/
theorem right_paddle_bounce_amended (b : Ball) (lp rp : Paddle) (rL rR : Bool)
    (hc : colliderect b.rect rp.rect) (hv : b.velx = 5) (_hp : rp.vel = 0) :
    (paddleCollide b lp rp rL rR).1.velx = -(5 * BOUNCE_ELASTICITY) ∧
    (paddleCollide b lp rp rL rR).1.velx < 0 ∧
    (paddleCollide b lp rp rL rR).1.rect = b.rect := by
  have hL : ¬(colliderect b.rect lp.rect ∧ b.velx < 0) := by
    rintro ⟨-, hlt⟩
    rw [hv] at hlt
    norm_num at hlt
  have hLs : leftCollideStep b lp rL = (b, lp) := by
    unfold leftCollideStep; rw [if_neg hL]
  unfold paddleCollide
  dsimp only
  rw [hLs]
  dsimp only
  unfold rightCollideStep
  rw [if_pos ⟨hc, by rw [hv]; norm_num⟩]
  dsimp only
  unfold Ball.bounceStep
  dsimp only
  rw [hv]
  have hne : ¬(-(5 : ℚ) * BOUNCE_ELASTICITY = 0) := by norm_num [BOUNCE_ELASTICITY]
  rw [if_neg hne]
  refine ⟨by ring, by norm_num [BOUNCE_ELASTICITY], rfl⟩

/-- Witness for the amended C5 at a concrete rightward ball. -/
theorem right_paddle_bounce_amended_witness :
    (paddleCollide ballC5b lpC5 rpC5 false false).1.velx = -(5 * BOUNCE_ELASTICITY) ∧
    (paddleCollide ballC5b lpC5 rpC5 false false).1.velx < 0 ∧
    (paddleCollide ballC5b lpC5 rpC5 false false).1.rect = ballC5b.rect :=
  right_paddle_bounce_amended ballC5b lpC5 rpC5 false false (by decide) rfl rfl
